import Mathlib

set_option maxRecDepth 10000

/-!
Shallow embedding of src/lib/libvcc/vmodtool.py: the VMOD declaration
language front end (tokenizer, stanza parser, symbol table, prototype
model) and the protocol-blob (JSON) generator.  Python lists of tokens
become Lean lists of strings; fatal errors (err with warn False, Python
IndexError / AssertionError / TypeError crashes) become Except.error;
warning-class errors (err with warn True) abort only in strict mode and
are otherwise accumulated in the state.  Error message texts follow the
source up to punctuation.
-/

namespace Vmodtool

/-- JSON-like values, as assembled by the jsonproto and json methods for
the protocol blob. -/
inductive JVal where
  | null : JVal
  | bool : Bool → JVal
  | str : String → JVal
  | arr : List JVal → JVal
  | obj : List (String × JVal) → JVal
deriving Repr

/-- Python str of None versus a present string, as used by percent-s
formatting of fields that may still be None. -/
def pyStr : Option String → String
  | none => "None"
  | some s => s

/-- Left-brace character, kept out of string literals. -/
def lbrace : Char := Char.ofNat 123

/-- Right-brace character, kept out of string literals. -/
def rbrace : Char := Char.ofNat 125

/-- Single-quote character. -/
def squote : Char := Char.ofNat 39

/-- Separator characters of vcc.tokenize (the seps default). -/
def sepChars : List Char := ['[', ']', '(', ')', lbrace, rbrace, ',', '=']

/-- Quote characters of vcc.tokenize (the quotes default). -/
def quoteChars : List Char := ['"', squote]

/-- Append a character to the token most recently opened (Python
out[-1] += c; out is kept reversed here). -/
def appendLast (out : List (List Char)) (c : Char) : List (List Char) :=
  match out with
  | [] => [[c]]
  | t :: rest => (t ++ [c]) :: rest

/-- Main loop of vcc.tokenize: quote state, inside-token flag, output
tokens kept reversed. -/
def tokenizeAux : List Char → Option Char → Bool → List (List Char) → List (List Char)
  | [], _, _, out => out.reverse
  | c :: rest, some q, inside, out =>
    if c = q then tokenizeAux rest none false (appendLast out c)
    else tokenizeAux rest (some q) inside (appendLast out c)
  | c :: rest, none, inside, out =>
    if c.isWhitespace then tokenizeAux rest none false out
    else if sepChars.contains c then tokenizeAux rest none false ([c] :: out)
    else if quoteChars.contains c then tokenizeAux rest (some c) inside ([c] :: out)
    else if inside then tokenizeAux rest none true (appendLast out c)
    else tokenizeAux rest none true ([c] :: out)

/-- vcc.tokenize on a character list. -/
def tokenizeL (cs : List Char) : List String :=
  (tokenizeAux cs none false []).map String.mk

/-- vcc.tokenize. -/
def tokenize (s : String) : List String :=
  tokenizeL s.data

/-- Split on the two-character marker newline plus dollar, as done by
a.split of the input prefixed with one newline in vcc.parse. -/
def splitNlDollar : List Char → List (List Char)
  | [] => [[]]
  | '\n' :: '$' :: rest => [] :: splitNlDollar rest
  | c :: rest =>
    match splitNlDollar rest with
    | [] => [[c]]
    | t :: ts => (c :: t) :: ts

/-- Split a character list at newline characters (Python str.split of
a newline). -/
def splitLinesAux : List Char → List (List Char)
  | [] => [[]]
  | '\n' :: rest => [] :: splitLinesAux rest
  | c :: rest =>
    match splitLinesAux rest with
    | [] => [[c]]
    | t :: ts => (c :: t) :: ts

/-- First match of the regex newline-then-non-blank used by re.split in
vcc.parse: returns the stanza header line group and the documentation
remainder (captured character included, as join of ss[1:] does). -/
def splitHeadDocAux : List Char → List Char × List Char
  | [] => ([], [])
  | '\n' :: c :: rest =>
    if c = '\t' ∨ c = ' ' then
      let r := splitHeadDocAux (c :: rest)
      ('\n' :: r.1, r.2)
    else ([], c :: rest)
  | c :: rest =>
    let r := splitHeadDocAux rest
    (c :: r.1, r.2)

/-- Python str.strip: whitespace removed from both ends. -/
def pyStrip (s : String) : String :=
  String.mk (((s.data.dropWhile Char.isWhitespace).reverse.dropWhile Char.isWhitespace).reverse)

/-- Python str.rstrip: whitespace removed from the right end. -/
def pyRstrip (s : String) : String :=
  String.mk (s.data.reverse.dropWhile Char.isWhitespace).reverse

/-- A line whose strip is empty, i.e. all whitespace. -/
def isBlankLine (l : List Char) : Bool := l.all Char.isWhitespace

/-- Documentation block of a stanza: split into lines, leading and
trailing blank lines removed (Stanza.init). -/
def docOf (docstr : String) : List String :=
  let ls := splitLinesAux docstr.data
  let ls := ls.dropWhile isBlankLine
  let ls := (ls.reverse.dropWhile isBlankLine).reverse
  ls.map String.mk

/-- Python sep.join of a string list. -/
def joinSep (sep : String) : List String → String
  | [] => ""
  | [x] => x
  | x :: xs => x ++ sep ++ joinSep sep xs

/-- Concatenation of a string list (used for stating fold facts). -/
def strConcat : List String → String
  | [] => ""
  | x :: xs => x ++ strConcat xs

/-- is_quoted: length strictly above two, first equals last, first is a
quote character. -/
def is_quoted (txt : String) : Bool :=
  decide (2 < txt.data.length) &&
  (match txt.data.head?, txt.data.getLast? with
   | some a, some b => a == b && (a == '"' || a == squote)
   | _, _ => false)

/-- unquote: the token without its first and last character. -/
def unquote (txt : String) : String :=
  String.mk (txt.data.drop 1).dropLast

/-- The CTYPES table (PRIVS merged in), mapping VCC type tokens to C
type names. -/
def CTYPES : String → Option String := fun vt =>
  if vt = "ACL" then some "VCL_ACL"
  else if vt = "BACKEND" then some "VCL_BACKEND"
  else if vt = "BLOB" then some "VCL_BLOB"
  else if vt = "BODY" then some "VCL_BODY"
  else if vt = "BOOL" then some "VCL_BOOL"
  else if vt = "BYTES" then some "VCL_BYTES"
  else if vt = "DURATION" then some "VCL_DURATION"
  else if vt = "ENUM" then some "VCL_ENUM"
  else if vt = "HEADER" then some "VCL_HEADER"
  else if vt = "HTTP" then some "VCL_HTTP"
  else if vt = "INT" then some "VCL_INT"
  else if vt = "IP" then some "VCL_IP"
  else if vt = "PROBE" then some "VCL_PROBE"
  else if vt = "REAL" then some "VCL_REAL"
  else if vt = "REGEX" then some "VCL_REGEX"
  else if vt = "STEVEDORE" then some "VCL_STEVEDORE"
  else if vt = "STRANDS" then some "VCL_STRANDS"
  else if vt = "STRING" then some "VCL_STRING"
  else if vt = "SUB" then some "VCL_SUB"
  else if vt = "TIME" then some "VCL_TIME"
  else if vt = "VOID" then some "VCL_VOID"
  else if vt = "PRIV_CALL" then some "struct vmod_priv *"
  else if vt = "PRIV_VCL" then some "struct vmod_priv *"
  else if vt = "PRIV_TASK" then some "struct vmod_priv *"
  else if vt = "PRIV_TOP" then some "struct vmod_priv *"
  else none

/-- Idempotent ordered insertion, modelling enums[x] = True on the
module-wide enum dict (insertion order preserved, duplicates kept
once). -/
def enumAdd (es : List String) (x : String) : List String :=
  if es.contains x then es else es ++ [x]

/-- An argument or type descriptor: the fields of class CType plus the
extra fields class arg adds (nm, defval) and the bookkeeping ones the
prototype parser adds (nm2, opt). -/
structure CTypeV where
  vt : String
  ct : String
  nm : Option String := none
  nm2 : String := ""
  defval : Option String := none
  spec : Option (List String) := none
  opt : Bool := false
deriving Repr, DecidableEq

/-- Loop of CType.add_spec after the opening brace token was consumed:
literals are unquoted when quoted, must be nonempty, are appended to
the spec and registered in the enum set; separators are comma, the
closing brace ends the loop; anything else is the assert failing. -/
def addSpecLoop : List String → List String → List String →
    Except String (List String × List String × List String)
  | [], _, _ => Except.error "IndexError: pop from empty list"
  | x :: wl, spec, enums =>
    let x := if is_quoted x then unquote x else x
    if x = "" then Except.error "AssertionError: empty enum literal"
    else
      let spec := spec ++ [x]
      let enums := enumAdd enums x
      match wl with
      | [] => Except.error "IndexError: pop from empty list"
      | w :: wl =>
        if w = "\x7d" then Except.ok (spec, enums, wl)
        else if w = "," then addSpecLoop wl spec enums
        else Except.error "AssertionError: expected comma in enum spec"

/-- CType.init: pop the type token, look it up in CTYPES, and parse a
brace-delimited literal spec when present (ENUM only).  Returns the
descriptor, the remaining word list, and the updated enum set. -/
def ctypeInit (wl : List String) (enums : List String) :
    Except String (CTypeV × List String × List String) :=
  match wl with
  | [] => Except.error "IndexError: pop from empty list"
  | vt :: wl =>
    match CTYPES vt with
    | none => Except.error ("Expected type got " ++ vt)
    | some ct =>
      if wl.head? = some "\x7b" then
        if vt ≠ "ENUM" then Except.error "Only ENUMs take brace specs"
        else
          match addSpecLoop (wl.drop 1) [] enums with
          | Except.error e => Except.error e
          | Except.ok (spec, enums, wl) =>
            Except.ok ({ vt := vt, ct := ct, spec := some spec }, wl, enums)
      else Except.ok ({ vt := vt, ct := ct }, wl, enums)

/-- arg.init: parse the front of the word list into one argument: the
type part, an optional name (duplicate names fatal), and an optional
equals-sign default (an ENUM default is unquoted when quoted).  Returns
the argument, the remaining words, the argument-name set and the enum
set. -/
def argInit (wl : List String) (argnames : List String) (enums : List String)
    (endTok : String) :
    Except String (CTypeV × List String × List String × List String) :=
  match ctypeInit wl enums with
  | Except.error e => Except.error e
  | Except.ok (t, wl, enums) =>
    match wl with
    | [] => Except.error "IndexError: wl[0]"
    | w0 :: wl1 =>
      if w0 = endTok then Except.ok (t, w0 :: wl1, argnames, enums)
      else
        if argnames.contains w0 then
          Except.error ("Duplicate argument name " ++ w0)
        else
          let argnames := argnames ++ [w0]
          let t := { t with nm := some w0 }
          match wl1 with
          | [] => Except.error "IndexError: wl[0]"
          | w1 :: wl2 =>
            if w1 = endTok then Except.ok (t, w1 :: wl2, argnames, enums)
            else
              if w1 ≠ "=" then Except.error ("Expected = got " ++ w1)
              else
                match wl2 with
                | [] => Except.error "IndexError: pop from empty list"
                | w2 :: wl3 =>
                  let w2 := if t.vt = "ENUM" && is_quoted w2 then unquote w2 else w2
                  Except.ok ({ t with defval := some w2 }, wl3, argnames, enums)

/-- Name regex of ProtoType.init: one letter or dot, then letters,
digits and underscores. -/
def nameOk (s : String) : Bool :=
  match s.data with
  | [] => false
  | c :: cs => (c.isAlpha || c = '.') && cs.all (fun d => d.isAlphanum || d = '_')

/-- C identifier regex: one letter or underscore, then letters, digits
and underscores. -/
def plainCName : List Char → Bool
  | [] => false
  | c :: cs => (c.isAlpha || c = '_') && cs.all (fun d => d.isAlphanum || d = '_')

/-- ProtoType.cname without the symbol cache: dots replaced by
underscores. -/
def cnameOf (name : String) : String :=
  String.mk (name.data.map (fun c => if c = '.' then '_' else c))

/-- A parsed callable signature (class ProtoType): return type, base
name, full (possibly object-qualified) name, arguments, and the
argument-struct flag raised by optional arguments. -/
structure ProtoTypeV where
  retval : CTypeV
  bname : String
  name : String
  obj : Option String := none
  args : List CTypeV := []
  argstruct : Bool := false
deriving Repr, DecidableEq

/-- Argument-list loop of ProtoType.init.  The word list was rewritten
so that it starts and ends with a comma; each round consumes the
leading comma and then one argument, which may be wrapped in square
brackets to mark it optional (optional arguments must be named, raise
the argstruct flag); VOID arguments are fatal; unnamed arguments get a
synthesized ordinal bookkeeping name.  Fuel is the initial list length
plus one, which the strictly consuming loop never exhausts. -/
def protoArgsLoop : Nat → List String → List String → List String → Nat →
    List CTypeV → Bool → Except String (List CTypeV × Bool × List String)
  | 0, _, _, _, _, _, _ => Except.error "out of fuel"
  | _ + 1, [], _, enums, _, args, astr => Except.ok (args, astr, enums)
  | fuel + 1, x :: wl, names, enums, n, args, astr =>
    let n := n + 1
    if x ≠ "," then Except.error ("Expected , found " ++ x)
    else if wl = [] then Except.ok (args, astr, enums)
    else
      let step : Except String (CTypeV × List String × List String × List String × Bool) :=
        if wl.head? = some "[" then
          match argInit (wl.drop 1) names enums "]" with
          | Except.error e => Except.error e
          | Except.ok (t, wl2, names2, enums2) =>
            if t.nm = none then Except.error "Optional arguments must have names"
            else
              let t := { t with opt := true }
              match wl2 with
              | [] => Except.error "IndexError: pop from empty list"
              | x2 :: wl3 =>
                if x2 ≠ "]" then Except.error ("Expected ] found " ++ x2)
                else Except.ok (t, wl3, names2, enums2, true)
        else
          match argInit wl names enums "," with
          | Except.error e => Except.error e
          | Except.ok (t, wl2, names2, enums2) => Except.ok (t, wl2, names2, enums2, astr)
      match step with
      | Except.error e => Except.error e
      | Except.ok (t, wl2, names2, enums2, astr2) =>
        if t.vt = "VOID" then
          Except.error ("arguments can not be of type " ++ t.vt)
        else
          let t := if t.nm = none then { t with nm2 := "arg" ++ toString n }
                   else { t with nm2 := pyStr t.nm }
          protoArgsLoop fuel wl2 names2 enums2 n (args ++ [t]) astr2

/-- ProtoType.init: parse the stanza tokens after the keyword into a
prototype.  With retval false the return type is the implicit VOID.
Checks the name and C-name regexes, then parses the parenthesized
argument list (the parentheses are rewritten to commas first, exactly
as in the source).  Returns the prototype and the updated enum set. -/
def protoTypeInit (toks : List String) (retval : Bool) (pfx : String)
    (enums0 : List String) : Except String (ProtoTypeV × List String) :=
  let wl0 := toks.drop 1
  let rstep : Except String (CTypeV × List String × List String) :=
    if retval then ctypeInit wl0 enums0
    else
      match ctypeInit ["VOID"] enums0 with
      | Except.error e => Except.error e
      | Except.ok (rv, _, en) => Except.ok (rv, wl0, en)
  match rstep with
  | Except.error e => Except.error e
  | Except.ok (rv, wl1, enums1) =>
    match wl1 with
    | [] => Except.error "IndexError: pop from empty list"
    | bname :: wl2 =>
      if ¬ nameOk bname then Except.error (bname ++ "(): Illegal name\n")
      else
        let name := pfx ++ bname
        if ¬ plainCName (cnameOf name).data then
          Except.error (cnameOf name ++ "(): Illegal C-name\n")
        else
          if wl2 = ["(", ")"] then
            Except.ok ({ retval := rv, bname := bname, name := name }, enums1)
          else
            match wl2 with
            | [] => Except.error "IndexError: wl[0]"
            | w0 :: wrest =>
              if w0 ≠ "(" then
                Except.error ("Syntax error: Expected ( got " ++ w0)
              else
                let wl3 := "," :: wrest
                match wl3.getLast? with
                | none => Except.error "IndexError: wl[-1]"
                | some wlast =>
                  if wlast ≠ ")" then
                    Except.error ("Syntax error: Expected ) got " ++ wlast)
                  else
                    let wl4 := wl3.dropLast ++ [","]
                    match protoArgsLoop (wl4.length + 1) wl4 [] enums1 0 [] false with
                    | Except.error e => Except.error e
                    | Except.ok (args, astr, enums2) =>
                      Except.ok ({ retval := rv, bname := bname, name := name,
                                   args := args, argstruct := astr }, enums2)

/-- The stanza kinds of the DISPATCH table. -/
inductive StanzaKind where
  | module | pfx | abi | synopsis | event | function | object | method | alias
deriving Repr, DecidableEq

/-- A method stanza as stored on its owning object (class MethodStanza:
never in the top-level contents list). -/
structure MethodV where
  toks : List String
  doc : List String
  rstlbl : Option String := none
  pfx : String := ""
  proto : Option ProtoTypeV := none
deriving Repr, DecidableEq

/-- One top-level stanza record: the shared Stanza fields plus each
subclass's own parsed fields (unused fields stay at their defaults,
exactly as unset attributes in the source). -/
structure StanzaV where
  kind : StanzaKind
  toks : List String
  doc : List String
  rstlbl : Option String := none
  null_ok : Bool := false
  methods : Option (List MethodV) := none
  proto : Option ProtoTypeV := none
  event_func : Option String := none
  sym_alias : Option String := none
  doc_alias : Option String := none
  sym_name : Option String := none
  doc_name : Option String := none
  initP : Option ProtoTypeV := none
  finiP : Option ProtoTypeV := none
deriving Repr, DecidableEq

/-- Fresh stanza with the shared Stanza.init fields set. -/
def mkStanza (k : StanzaKind) (toks : List String) (docstr : String) : StanzaV :=
  { kind := k, toks := toks, doc := docOf docstr }

/-- The processing context of class vcc, including the incrementally
accumulated fingerprint preimage.  The file_id of the source is the
SHA-256 hex digest of hashtxt; the digest being a fixed function of its
preimage, the preimage is recorded. -/
structure VccState where
  sympfx : String := "vmod_"
  copyright : String := ""
  contents : List StanzaV := []
  enums : List String := []
  strict_abi : Option Bool := some true
  vrt_major : String := "0"
  vrt_minor : String := "0"
  auto_synopsis : Option Bool := some true
  modname : Option String := none
  mansection : Option String := none
  moddesc : Option String := none
  csn : Option String := none
  hashtxt : String := ""
  file_id : Option String := none
  warnings : List String := []
deriving Repr, DecidableEq

/-- err with the default warn True: fatal under strict, otherwise a
recorded warning. -/
def errW (strict : Bool) (st : VccState) (msg : String) : Except String VccState :=
  if strict then Except.error msg
  else Except.ok { st with warnings := st.warnings ++ [msg] }

/-- Stanza.syntax error text. -/
def synMsg (usage : String) (toks : List String) : String :=
  "Syntax error.\n\tShould be: " ++ usage ++ "\n\tIs: " ++ joinSep " " toks ++ "\n"

/-- ModuleStanza.parse: needs at least four tokens; records module
name, man section and description (unquoted if the single description
token is quoted, otherwise the space-joined remainder). -/
def moduleParse (_strict : Bool) (st : VccState) (toks : List String) (docstr : String) :
    Except String VccState :=
  if toks.length < 4 then
    Except.error (synMsg "$Module modname man_section description ..." toks)
  else
    let modname := toks.getD 1 ""
    let mansection := toks.getD 2 ""
    let moddesc :=
      if toks.length = 4 && is_quoted (toks.getD 3 "") then unquote (toks.getD 3 "")
      else joinSep " " (toks.drop 3)
    let stz := { mkStanza StanzaKind.module toks docstr with
                 rstlbl := some ("vmod_" ++ modname ++ "(3)") }
    Except.ok { st with
      modname := some modname, mansection := some mansection,
      moddesc := some moddesc, contents := st.contents ++ [stz] }

/-- PrefixStanza.parse: exactly two tokens; sets the symbol prefix
unconditionally (no re-declaration check in the source). -/
def pfxStanzaParse (_strict : Bool) (st : VccState) (toks : List String) (docstr : String) :
    Except String VccState :=
  if toks.length ≠ 2 then Except.error (synMsg "$Prefix symbol" toks)
  else
    Except.ok { st with
      sympfx := toks.getD 1 "" ++ "_",
      contents := st.contents ++ [mkStanza StanzaKind.pfx toks docstr] }

/-- ABIStanza.parse: exactly two tokens; the mode token maps to strict
or vrt, an unknown token leaves the mode unset and goes through err
with the default warn (fatal only under strict); afterwards a non-true
mode installs the symbolic version placeholders.  No re-declaration
check exists in the source. -/
def abiParse (strict : Bool) (st : VccState) (toks : List String) (docstr : String) :
    Except String VccState :=
  if toks.length ≠ 2 then Except.error (synMsg "$ABI [strict|vrt]" toks)
  else
    let t := toks.getD 1 ""
    let sa : Option Bool :=
      if t = "strict" then some true else if t = "vrt" then some false else none
    let st1 := { st with strict_abi := sa }
    let next : Except String VccState :=
      if sa = none then
        errW strict st1 ("Valid ABI types are strict or vrt, got " ++ t ++ "\n")
      else Except.ok st1
    match next with
    | Except.error e => Except.error e
    | Except.ok st2 =>
      let st3 := { st2 with contents := st2.contents ++ [mkStanza StanzaKind.abi toks docstr] }
      if st3.strict_abi ≠ some true then
        Except.ok { st3 with
          vrt_major := "VRT_MAJOR_VERSION", vrt_minor := "VRT_MINOR_VERSION" }
      else Except.ok st3

/-- SynopsisStanza.parse: exactly two tokens; auto or manual, an
unknown token leaves the setting unset and warns (fatal only under
strict). -/
def synopsisParse (strict : Bool) (st : VccState) (toks : List String) (docstr : String) :
    Except String VccState :=
  if toks.length ≠ 2 then Except.error (synMsg "$Synopsis [auto|manual]" toks)
  else
    let t := toks.getD 1 ""
    let v : Option Bool :=
      if t = "auto" then some true else if t = "manual" then some false else none
    let st1 := { st with auto_synopsis := v }
    let next : Except String VccState :=
      if v = none then
        errW strict st1 ("Valid Synopsis values are auto or manual, got " ++ t ++ "\n")
      else Except.ok st1
    match next with
    | Except.error e => Except.error e
    | Except.ok st2 =>
      Except.ok { st2 with contents := st2.contents ++ [mkStanza StanzaKind.synopsis toks docstr] }

/-- EventStanza.parse: exactly two tokens; records the hook function
name.  No prototype is attached. -/
def eventParse (_strict : Bool) (st : VccState) (toks : List String) (docstr : String) :
    Except String VccState :=
  if toks.length ≠ 2 then Except.error (synMsg "$Event function_name" toks)
  else
    let stz := { mkStanza StanzaKind.event toks docstr with event_func := some (toks.getD 1 "") }
    Except.ok { st with contents := st.contents ++ [stz] }

/-- FunctionStanza.parse: a full prototype with a real return type. -/
def functionParse (_strict : Bool) (st : VccState) (toks : List String) (docstr : String) :
    Except String VccState :=
  match protoTypeInit toks true "" st.enums with
  | Except.error e => Except.error e
  | Except.ok (p, enums) =>
    let stz := { mkStanza StanzaKind.function toks docstr with
                 rstlbl := some (pyStr st.modname ++ "." ++ p.name ++ "()"),
                 proto := some p }
    Except.ok { st with enums := enums, contents := st.contents ++ [stz] }

/-- ObjectStanza.parse: optional leading NULL_OK marker is popped; the
constructor prototype has an implicit VOID return; two shallow copies
are synthesized: init (name suffixed with two underscores and init) and
fini (suffixed likewise, argument list emptied, argstruct cleared); an
empty method list is opened. -/
def objectParse (_strict : Bool) (st : VccState) (toks : List String) (docstr : String) :
    Except String VccState :=
  match toks with
  | [] => Except.error "IndexError: toks[1]"
  | [_] => Except.error "IndexError: toks[1]"
  | t0 :: t1 :: tl2 =>
    let toksA := if t1 = "NULL_OK" then t0 :: tl2 else t0 :: t1 :: tl2
    let null_ok := t1 = "NULL_OK"
    match protoTypeInit toksA false "" st.enums with
    | Except.error e => Except.error e
    | Except.ok (p0, enums) =>
      let p := { p0 with obj := some ("x" ++ p0.name) }
      let initP := { p with name := p.name ++ "__init" }
      let finiP := { p with
        name := p.name ++ "__fini", argstruct := false, args := ([] : List CTypeV) }
      let stz : StanzaV :=
        { kind := StanzaKind.object, toks := toksA, doc := docOf docstr,
          rstlbl := some (pyStr st.modname ++ "." ++ p.name ++ "()"),
          null_ok := null_ok, methods := some [], proto := some p,
          initP := some initP, finiP := some finiP }
      Except.ok { st with enums := enums, contents := st.contents ++ [stz] }

/-- MethodStanza.parse: the last top-level stanza must be an Object
(the assert); the prototype is parsed with the object name as name
prefix, the base name must start with a dot, and the method is appended
to the owning object's method list (not to the top-level contents). -/
def methodParse (_strict : Bool) (st : VccState) (toks : List String) (docstr : String) :
    Except String VccState :=
  match st.contents.getLast? with
  | none => Except.error "IndexError: contents[-1]"
  | some p =>
    if p.kind ≠ StanzaKind.object then
      Except.error "AssertionError: last stanza is not an Object"
    else
      let pfx := pyStr (p.proto.map (fun q => q.name))
      match protoTypeInit toks true pfx st.enums with
      | Except.error e => Except.error e
      | Except.ok (pr, enums) =>
        if pr.bname.data.head? ≠ some '.' then
          Except.error ("$Method " ++ pr.bname ++ ": Method names need to start with . (dot)")
        else
          let pr := { pr with obj := some ("x" ++ pfx) }
          let m : MethodV := { toks := toks, doc := docOf docstr,
                               rstlbl := some ("x" ++ pr.name ++ "()"),
                               pfx := pfx, proto := some pr }
          let newP := { p with methods := some (p.methods.getD [] ++ [m]) }
          Except.ok { st with
            enums := enums, contents := st.contents.dropLast ++ [newP] }

/-- AliasStanza.find_symbol on the top-level contents: linear scan,
entries without a prototype are skipped, first prototype whose name
matches wins, otherwise fatal. -/
def findSymbolS : List StanzaV → String → Except String StanzaV
  | [], name => Except.error ("Symbol " ++ name ++ " not found\n")
  | s :: tbl, name =>
    match s.proto with
    | none => findSymbolS tbl name
    | some p => if p.name = name then Except.ok s else findSymbolS tbl name

/-- AliasStanza.find_symbol on a method list. -/
def findSymbolM : List MethodV → String → Except String MethodV
  | [], name => Except.error ("Symbol " ++ name ++ " not found\n")
  | m :: tbl, name =>
    match m.proto with
    | none => findSymbolM tbl name
    | some p => if p.name = name then Except.ok m else findSymbolM tbl name

/-- Alias-name regex: optional leading dot, then a C identifier. -/
def aliasNameOk (s : String) : Bool :=
  match s.data with
  | '.' :: rest => plainCName rest
  | l => plainCName l

/-- Does the token start with a dot. -/
def startsDot (s : String) : Bool := s.data.head? = some '.'

/-- Dotted-target regex: C identifier, dot, C identifier. -/
def dottedOk (s : String) : Bool :=
  let pre := s.data.takeWhile (fun c => c ≠ '.')
  match s.data.dropWhile (fun c => c ≠ '.') with
  | '.' :: post => plainCName pre && plainCName post
  | _ => false

/-- AliasStanza.parse: three tokens; the alias name must match the
optional-dot identifier regex; a dotted alias resolves the object then
the method in that object's method list (iterating a missing method
list is the Python TypeError), a plain alias resolves a top-level
symbol; the resolved stanza records alias and canonical names. -/
def aliasParse (_strict : Bool) (st : VccState) (toks : List String) (docstr : String) :
    Except String VccState :=
  if toks.length ≠ 3 then
    Except.error "Syntax error, expected: $Alias <alias> <symbol>\n"
  else
    let a := toks.getD 1 ""
    let t := toks.getD 2 ""
    if ¬ aliasNameOk a then Except.error (a ++ "(): Illegal C-name\n")
    else if startsDot a then
      if ¬ dottedOk t then
        Except.error "Syntax error, expected: $Alias <.alias> <obj.method>\n"
      else
        let obj_name := String.mk (t.data.takeWhile (fun c => c ≠ '.'))
        match findSymbolS st.contents obj_name with
        | Except.error e => Except.error e
        | Except.ok o =>
          match o.methods with
          | none => Except.error "TypeError: NoneType object is not iterable"
          | some ms =>
            match findSymbolM ms t with
            | Except.error e => Except.error e
            | Except.ok _ =>
              let stz := { mkStanza StanzaKind.alias toks docstr with
                           sym_alias := some (obj_name ++ a),
                           doc_alias := some ("x" ++ obj_name ++ a),
                           sym_name := some t, doc_name := some ("x" ++ t) }
              Except.ok { st with contents := st.contents ++ [stz] }
    else
      match findSymbolS st.contents t with
      | Except.error e => Except.error e
      | Except.ok _ =>
        let stz := { mkStanza StanzaKind.alias toks docstr with
                     sym_alias := some a, doc_alias := some a,
                     sym_name := some t, doc_name := some t }
        Except.ok { st with contents := st.contents ++ [stz] }

/-- One chunk of vcc.parse: split header line group from documentation,
tokenize the header, fold the canonical re-joined token line into the
fingerprint preimage, then dispatch on the keyword (unknown keywords
fatal). -/
def parseChunk (strict : Bool) (st : VccState) (chunk : List Char) :
    Except String VccState :=
  let hd := splitHeadDocAux chunk
  let toks := tokenizeL hd.1
  let docstr := String.mk hd.2
  let inputline := "$" ++ joinSep " " toks
  let st := { st with hashtxt := st.hashtxt ++ inputline ++ "\n" }
  match toks.head? with
  | none => Except.error "IndexError: toks[0]"
  | some t0 =>
    if t0 = "Module" then moduleParse strict st toks docstr
    else if t0 = "Prefix" then pfxStanzaParse strict st toks docstr
    else if t0 = "ABI" then abiParse strict st toks docstr
    else if t0 = "Event" then eventParse strict st toks docstr
    else if t0 = "Function" then functionParse strict st toks docstr
    else if t0 = "Object" then objectParse strict st toks docstr
    else if t0 = "Method" then methodParse strict st toks docstr
    else if t0 = "Synopsis" then synopsisParse strict st toks docstr
    else if t0 = "Alias" then aliasParse strict st toks docstr
    else Except.error ("Unknown stanza $" ++ t0)

/-- Fold of vcc.parse over the stanza chunks. -/
def parseChunks (strict : Bool) : VccState → List (List Char) → Except String VccState
  | st, [] => Except.ok st
  | st, ch :: rest =>
    match parseChunk strict st ch with
    | Except.error e => Except.error e
    | Except.ok st2 => parseChunks strict st2 rest

/-- vcc.parse: newline prepended, split on the newline-dollar marker,
leading block stripped into the copyright, each chunk parsed in order,
then the C-struct name and the content-identity fingerprint are
sealed. -/
def vccParse (strict : Bool) (input : String) : Except String VccState :=
  match splitNlDollar ('\n' :: input.data) with
  | [] => Except.error "unreachable"
  | cr :: chunks =>
    let st0 : VccState := { copyright := pyStrip (String.mk cr) }
    match parseChunks strict st0 chunks with
    | Except.error e => Except.error e
    | Except.ok st =>
      Except.ok { st with
        csn := some ("Vmod_" ++ st.sympfx ++ pyStr st.modname ++ "_Func"),
        file_id := some st.hashtxt }

/-- Strip values from the right end of a list while they are null
(the jsonproto while-loop popping jl[-1][-1]), phrased on the reversed
list. -/
def popNullsRev : List JVal → List JVal
  | JVal.null :: rest => popNullsRev rest
  | l => l

/-- Trailing nulls removed, as the jsonproto while-loops do. -/
def popTrailingNulls (l : List JVal) : List JVal :=
  (popNullsRev l.reverse).reverse

/-- JSON image of an optional string field (None becomes null). -/
def jvalOfOptStr : Option String → JVal
  | none => JVal.null
  | some s => JVal.str s

/-- JSON image of an optional enum spec. -/
def jvalOfSpec : Option (List String) → JVal
  | none => JVal.null
  | some l => JVal.arr (l.map JVal.str)

/-- The full argument tuple built by arg.jsonproto before trimming:
type, name, default, spec, and the optional flag appended only when
set. -/
def argTupleFull (a : CTypeV) : List JVal :=
  let l : List JVal := [JVal.str a.vt, jvalOfOptStr a.nm, jvalOfOptStr a.defval,
                        jvalOfSpec a.spec]
  if a.opt then l ++ [JVal.bool true] else l

/-- arg.jsonproto: the tuple with trailing nulls removed. -/
def argJsonList (a : CTypeV) : List JVal :=
  popTrailingNulls (argTupleFull a)

/-- arg.jsonproto as one JSON array. -/
def argJson (a : CTypeV) : JVal :=
  JVal.arr (argJsonList a)

/-- ProtoType.jsonproto: return-type array, dotted C-struct member
reference, argument-struct tag (or empty string), then one array per
argument. -/
def protoJson (st : VccState) (p : ProtoTypeV) (cfunc : String) : JVal :=
  JVal.arr ([JVal.arr (popTrailingNulls [JVal.str p.retval.vt]),
             JVal.str (pyStr st.csn ++ "." ++ cfunc),
             if p.argstruct then
               JVal.str ("struct arg_" ++ st.sympfx ++ pyStr st.modname ++ "_"
                          ++ cnameOf p.name)
             else JVal.str ""] ++ p.args.map argJson)

/-- MethodStanza.json: tag, method name with the object prefix and dot
stripped, prototype description. -/
def methodJson (st : VccState) (m : MethodV) : JVal :=
  match m.proto with
  | some p => JVal.arr [JVal.str "$METHOD",
                        JVal.str (String.mk (p.name.data.drop (m.pfx.length + 1))),
                        protoJson st p (cnameOf p.name)]
  | none => JVal.arr []

/-- Per-stanza json method: the list of protocol entries a stanza
appends (empty for the metadata stanzas, which define no json
override). -/
def stanzaJsonEntries (st : VccState) (s : StanzaV) : List JVal :=
  match s.kind with
  | StanzaKind.event =>
    [JVal.arr [JVal.str "$EVENT", JVal.str (pyStr st.csn ++ "._event")]]
  | StanzaKind.function =>
    match s.proto with
    | some p => [JVal.arr [JVal.str "$FUNC", JVal.str p.name,
                           protoJson st p (cnameOf p.name)]]
    | none => []
  | StanzaKind.object =>
    match s.proto, s.initP, s.finiP with
    | some p, some ip, some fp =>
      [JVal.arr ([JVal.str "$OBJ", JVal.str p.name,
                  JVal.obj [("NULL_OK", JVal.bool s.null_ok)],
                  JVal.str ("struct " ++ st.sympfx ++ pyStr st.modname ++ "_" ++ p.name),
                  JVal.arr [JVal.str "$INIT", protoJson st ip ip.name],
                  JVal.arr [JVal.str "$FINI", protoJson st fp fp.name]]
                 ++ (s.methods.getD []).map (methodJson st))]
    | _, _, _ => []
  | StanzaKind.alias =>
    [JVal.arr [JVal.str "$ALIAS", JVal.str (pyStr s.sym_alias),
               JVal.str (pyStr s.sym_name)]]
  | _ => []

/-- All protocol entries contributed by the contents, in declaration
order (the for-loop of vcc.iter_json over self.contents). -/
def contentsJson (st : VccState) : List JVal :=
  st.contents.foldl (fun acc s => acc ++ stanzaJsonEntries st s) []

/-- vcc.iter_json: header entry, CPROTO entry embedding the given
generated prototype lines (right-stripped) plus the static-instance
line, then the per-stanza entries in order.  The indented text
serialization is a fixed function of this list. -/
def iter_json (st : VccState) (cprotoLines : List String) : List JVal :=
  [JVal.arr [JVal.str "$VMOD", JVal.str "1.0", JVal.str (pyStr st.modname),
             JVal.str (pyStr st.csn), JVal.str (pyStr st.file_id)],
   JVal.arr ([JVal.str "$CPROTO"] ++ cprotoLines.map (fun l => JVal.str (pyRstrip l))
             ++ [JVal.str ("static struct " ++ pyStr st.csn ++ " " ++ pyStr st.csn ++ ";")])]
  ++ contentsJson st

/-- ProtoType.argstructname. -/
def argstructname (p : ProtoTypeV) : String :=
  "struct VARGS(" ++ cnameOf p.name ++ ")"

/-- One validity-flag line of the argument struct. -/
def validFlagLine (a : CTypeV) : String :=
  "\tchar\t\t\tvalid_" ++ pyStr a.nm ++ ";\n"

/-- One member line of the argument struct (tab padding depends on the
C type name length, as in the source). -/
def fieldDeclLine (a : CTypeV) : String :=
  "\t" ++ a.ct ++ (if a.ct.length < 8 then "\t" else "")
    ++ (if a.ct.length < 16 then "\t" else "") ++ "\t" ++ a.nm2 ++ ";\n"

/-- ProtoType.argstructure: header, one loop appending a validity flag
per optional argument, one loop appending a member per argument, then
the closing brace. -/
def argstructure (p : ProtoTypeV) : String :=
  let s := "\n" ++ argstructname p ++ " \x7b\n"
  let s := p.args.foldl (fun acc i => if i.opt then acc ++ validFlagLine i else acc) s
  let s := p.args.foldl (fun acc i => acc ++ fieldDeclLine i) s
  s ++ "\x7d;\n"

/-- Field names of the argument struct in emission order: specification
form used to state the field-order property. -/
def structFieldNames (p : ProtoTypeV) : List String :=
  (p.args.filter (fun a => a.opt)).map (fun a => "valid_" ++ pyStr a.nm)
    ++ p.args.map (fun a => a.nm2)

/-- ProtoType.proto: the C prototype line content, before line
wrapping: return C type, name, and the argument list, which is the
extra (implicit) arguments followed by either the argument-struct
pointer or the per-argument C types. -/
def protoCall (p : ProtoTypeV) (eargs : List String) (name : String) : String :=
  let ll := eargs ++ (if p.argstruct then [argstructname p ++ "*"] else p.args.map (fun a => a.ct))
  p.retval.ct ++ " " ++ name ++ "(" ++ joinSep ", " ll ++ ");"

/-- The struct tag ObjectStanza.cstuff builds for the object handle. -/
def objectSn (st : VccState) (p : ProtoTypeV) : String :=
  "VPFX(" ++ pyStr st.modname ++ "_" ++ p.name ++ ")"

/-- The implicit leading arguments ObjectStanza.cstuff passes for the
init prototype: context, handle pointer, name string. -/
def objectInitEargs (st : VccState) (s : StanzaV) : List String :=
  match s.proto with
  | some p => ["VRT_CTX", "struct " ++ objectSn st p ++ " **", "const char *"]
  | none => []

/-- The implicit leading argument ObjectStanza.cstuff passes for the
fini prototype: the handle pointer. -/
def objectFiniEargs (st : VccState) (s : StanzaV) : List String :=
  match s.proto with
  | some p => ["struct " ++ objectSn st p ++ " **"]
  | none => []

/-- Prototypes of the top-level contents, in declaration order. -/
def protosOf (st : VccState) : List ProtoTypeV :=
  st.contents.filterMap (fun s => s.proto)

/-- Boolean success test on Except. -/
def okB {α β : Type} : Except α β → Bool
  | Except.ok _ => true
  | Except.error _ => false

/-- Does a protocol entry carry the ALIAS tag. -/
def isAliasEntry : JVal → Bool
  | JVal.arr (JVal.str t :: _) => t = "$ALIAS"
  | _ => false

/-- Does a stanza carry a prototype with the given name (the test
find_symbol applies to each table entry). -/
def protoNameIs (name : String) (s : StanzaV) : Bool :=
  match s.proto with
  | none => false
  | some p => p.name == name

/-- Example document for the argument-struct field-order property. -/
def exC1doc : String :=
  "$Module m 3 \"d\"\n$Function VOID f(INT a, [INT b], INT c, [INT d])"

/-- Example document for the function protocol-entry property. -/
def exC4doc : String :=
  "$Module m 3 \"d\"\n$Function BOOL is_even(INT n)"

/-- Example document with one object and one declared argument. -/
def exObjDoc : String :=
  "$Module m 3 \"d\"\n$Object foo(STRING s)"

/-- Example state and tokens for applying the object-parse theorem. -/
def exObjSt0 : VccState := { modname := some "m" }

/-- Tokens of an Object stanza header used as concrete input. -/
def exObjToks : List String := ["Object", "foo", "(", "STRING", "s", ")"]

/-- The state objectParse produces on the concrete example. -/
def exObjParsed : VccState :=
  match objectParse true exObjSt0 exObjToks "" with
  | Except.ok s => s
  | Except.error _ => {}

/-- Example document with an object, a method, and a valid dotted
alias. -/
def exC5okDoc : String :=
  "$Module m 3 \"d\"\n$Object foo()\n$Method VOID .meth()\n$Alias .al foo.meth"

/-- Same document with the alias targeting a method that does not
exist. -/
def exC5badDoc : String :=
  "$Module m 3 \"d\"\n$Object foo()\n$Method VOID .meth()\n$Alias .al foo.nope"

/-- Example document with an invalid ABI mode token. -/
def exAbiBadDoc : String := "$Module m 3 \"d\"\n$ABI bogus"

/-- Example document declaring the symbol prefix twice. -/
def exTwoPfxDoc : String := "$Module m 3 \"d\"\n$Prefix p\n$Prefix q"

/-- Example document declaring the ABI mode twice. -/
def exTwoAbiDoc : String := "$Module m 3 \"d\"\n$ABI vrt\n$ABI strict"

/-- Example document whose Module declaration comes second. -/
def exLateModuleDoc : String := "$Function VOID f()\n$Module m 3 \"d\""

/-- Example document with no Module declaration at all. -/
def exNoModuleDoc : String := "$Function VOID f()"

/-- Example document containing every prototype-less stanza kind plus
one function. -/
def exC9kindsDoc : String :=
  "$Module m 3 \"d\"\n$Prefix p\n$ABI strict\n$Synopsis auto\n$Event ev\n$Function VOID f()\n$Alias g f"

/-- Example document whose alias targets an event hook. -/
def exC9aliasEventDoc : String :=
  "$Module m 3 \"d\"\n$Event ev\n$Alias al ev"

/-- Folding the conditional validity-flag append over an argument list
equals appending the concatenated flag lines of the optional
arguments. -/
theorem argstructure_valid_fold :
    ∀ (l : List CTypeV) (s : String),
      l.foldl (fun acc i => if i.opt then acc ++ validFlagLine i else acc) s
        = s ++ strConcat ((l.filter (fun a => a.opt)).map validFlagLine) := by
  intro l
  induction l with
  | nil =>
    intro s
    simp [strConcat]
  | cons a t ih =>
    intro s
    by_cases h : a.opt
    · simp [List.foldl_cons, h, ih, List.filter_cons, strConcat, String.append_assoc]
    · simp [List.foldl_cons, h, ih, List.filter_cons]

/-- Folding the member-line append over an argument list equals
appending the concatenated member lines. -/
theorem argstructure_field_fold :
    ∀ (l : List CTypeV) (s : String),
      l.foldl (fun acc i => acc ++ fieldDeclLine i) s
        = s ++ strConcat (l.map fieldDeclLine) := by
  intro l
  induction l with
  | nil =>
    intro s
    simp [strConcat]
  | cons a t ih =>
    intro s
    simp [List.foldl_cons, ih, strConcat, String.append_assoc]

/-- Stripping leading nulls from a list yields a suffix headed by a
non-null value, the dropped part being all nulls. -/
theorem popNullsRev_spec : ∀ l : List JVal,
    ∃ k, l = List.replicate k JVal.null ++ popNullsRev l ∧
      (popNullsRev l).head? ≠ some JVal.null := by
  intro l
  induction l with
  | nil => exact ⟨0, rfl, by simp [popNullsRev]⟩
  | cons a t ih =>
    cases a with
    | null =>
      obtain ⟨k, hk, hh⟩ := ih
      refine ⟨k + 1, ?_, ?_⟩
      · rw [popNullsRev]
        rw [List.replicate_succ, List.cons_append]
        exact congrArg (fun x => JVal.null :: x) hk
      · rw [popNullsRev]
        exact hh
    | bool b => exact ⟨0, rfl, by simp [popNullsRev]⟩
    | str v => exact ⟨0, rfl, by simp [popNullsRev]⟩
    | arr v => exact ⟨0, rfl, by simp [popNullsRev]⟩
    | obj v => exact ⟨0, rfl, by simp [popNullsRev]⟩

/-- Removing trailing nulls: the original list is the trimmed list plus
some nulls, and the trimmed list does not end in null. -/
theorem popTrailingNulls_spec (l : List JVal) :
    ∃ k, l = popTrailingNulls l ++ List.replicate k JVal.null ∧
      (popTrailingNulls l).getLast? ≠ some JVal.null := by
  obtain ⟨k, hk, hh⟩ := popNullsRev_spec l.reverse
  refine ⟨k, ?_, ?_⟩
  · have h2 := congrArg List.reverse hk
    simpa [popTrailingNulls, List.reverse_append, List.reverse_replicate] using h2
  · simpa [popTrailingNulls, List.getLast?_reverse] using hh

/-- find_symbol is the linear first match among prototype-bearing
entries: it equals find? with the name test, with the fatal error on
a miss. -/
theorem findSymbolS_eq_find (tbl : List StanzaV) (name : String) :
    findSymbolS tbl name =
      match tbl.find? (protoNameIs name) with
      | some s => Except.ok s
      | none => Except.error ("Symbol " ++ name ++ " not found\n") := by
  induction tbl with
  | nil => rfl
  | cons s t ih =>
    cases hp : s.proto with
    | none => simp [findSymbolS, List.find?_cons, protoNameIs, hp, ih]
    | some p =>
      by_cases hn : p.name = name
      · simp [findSymbolS, List.find?_cons, protoNameIs, hp, hn]
      · simp [findSymbolS, List.find?_cons, protoNameIs, hp, hn, ih]

/-- C1: for a prototype with the argstruct flag (at least one optional
argument), the synthesized aggregate struct lists first one validity
flag per optional argument in declaration order, then one member per
argument (optional and required alike) in declaration order; on the
concrete signature f(a, [b], c, [d]) the field order is valid_b,
valid_d, a, b, c, d and the argstruct flag is set. -/
theorem C1_argstruct_field_order :
    (∀ p : ProtoTypeV,
        argstructure p
          = "\n" ++ argstructname p ++ " \x7b\n"
            ++ strConcat ((p.args.filter (fun a => a.opt)).map validFlagLine)
            ++ strConcat (p.args.map fieldDeclLine)
            ++ "\x7d;\n")
  ∧ (vccParse true exC1doc).map (fun st => (protosOf st).map structFieldNames)
      = Except.ok [["valid_b", "valid_d", "a", "b", "c", "d"]]
  ∧ (vccParse true exC1doc).map (fun st => (protosOf st).map (fun p => p.argstruct))
      = Except.ok [true] := by
  refine ⟨?_, by rfl, by rfl⟩
  intro p
  simp only [argstructure]
  rw [argstructure_valid_fold, argstructure_field_fold]

/-- C2: the embedded compiler is a pure function of the input text (and
of the generated prototype lines handed to iter_json), so running it
twice on identical input yields identical content-identity fingerprints
and identical protocol blobs. -/
theorem C2_determinism (strict : Bool) (input : String) (cproto : List String) :
    vccParse strict input = vccParse strict input ∧
      (vccParse strict input).map (fun st => (st.file_id, iter_json st cproto))
        = (vccParse strict input).map (fun st => (st.file_id, iter_json st cproto)) :=
  ⟨rfl, rfl⟩

/-- C3 counterexample: for the object foo(STRING s) the generated init
prototype receives the three implicit leading arguments VRT_CTX, the
handle pointer and the name string before the one declared argument,
so its argument list has four entries, not the two-plus-one the claim
states. -/
theorem C3_counterexample :
    (vccParse true exObjDoc).map (fun st => st.contents.filterMap (fun s =>
        s.initP.map (fun ip => objectInitEargs st s ++ ip.args.map (fun a => a.ct))))
      = Except.ok [["VRT_CTX", "struct VPFX(m_foo) **", "const char *", "VCL_STRING"]]
  ∧ ¬ ((["VRT_CTX", "struct VPFX(m_foo) **", "const char *",
         "VCL_STRING"] : List String).length = 2 + 1) :=
  ⟨by rfl, by decide⟩

/-- C3 (amended): every successful Object parse synthesizes exactly the
two extra prototypes init and fini; fini has no declared arguments and
one implicit handle argument; init keeps the declared arguments and its
emitted prototype prefixes them with exactly three implicit leading
arguments (native context, handle pointer, name string). -/
theorem C3_init_fini_synthesis (strict : Bool) (st : VccState) (toks : List String)
    (docstr : String) (st2 : VccState)
    (h : objectParse strict st toks docstr = Except.ok st2) :
    ∃ s, st2.contents = st.contents ++ [s] ∧
      ∃ p, s.proto = some p ∧
        s.initP = some { p with name := p.name ++ "__init" } ∧
        s.finiP = some { p with name := p.name ++ "__fini", argstruct := false, args := [] } ∧
        objectInitEargs st2 s
          = ["VRT_CTX", "struct " ++ objectSn st2 p ++ " **", "const char *"] ∧
        objectFiniEargs st2 s = ["struct " ++ objectSn st2 p ++ " **"] := by
  rcases toks with _ | ⟨t0, _ | ⟨t1, tl⟩⟩
  · simp [objectParse] at h
  · simp [objectParse] at h
  · simp only [objectParse] at h
    split at h
    · exact absurd h (by simp)
    · rename_i p0 enums heq
      injection h with h2
      subst h2
      exact ⟨_, rfl, _, rfl, rfl, rfl, rfl, rfl⟩

/-- C3 witness: the amended object-synthesis theorem applied to the
concrete object foo(STRING s). -/
theorem C3_witness :
    ∃ s, exObjParsed.contents = exObjSt0.contents ++ [s] ∧
      ∃ p, s.proto = some p ∧
        s.initP = some { p with name := p.name ++ "__init" } ∧
        s.finiP = some { p with name := p.name ++ "__fini", argstruct := false, args := [] } ∧
        objectInitEargs exObjParsed s
          = ["VRT_CTX", "struct " ++ objectSn exObjParsed p ++ " **", "const char *"] ∧
        objectFiniEargs exObjParsed s = ["struct " ++ objectSn exObjParsed p ++ " **"] :=
  C3_init_fini_synthesis true exObjSt0 exObjToks "" exObjParsed (by rfl)

/-- C4: every function protocol entry is a FUNC-tagged array; each
argument contributes the tuple (kind, name, default, enum set, optional
flag) with trailing nulls removed and never ending in null; on the
concrete BOOL is_even(INT n) the entry carries the trimmed argument
array INT, n. -/
theorem C4_function_json_entry :
    (∀ a : CTypeV, ∃ k,
        argTupleFull a = argJsonList a ++ List.replicate k JVal.null ∧
        (argJsonList a).getLast? ≠ some JVal.null)
  ∧ (vccParse true exC4doc).map (fun st => contentsJson st)
      = Except.ok [JVal.arr [JVal.str "$FUNC", JVal.str "is_even",
          JVal.arr [JVal.arr [JVal.str "BOOL"], JVal.str "Vmod_vmod_m_Func.is_even",
            JVal.str "", JVal.arr [JVal.str "INT", JVal.str "n"]]]] := by
  refine ⟨?_, by rfl⟩
  intro a
  exact popTrailingNulls_spec (argTupleFull a)

/-- C5: alias resolution is a linear lookup (find_symbol equals first
match among prototype-bearing entries); an unresolved plain target
propagates the fatal symbol-not-found error; a resolved plain alias
appends exactly one stanza whose protocol contribution is the single
entry ALIAS, alias name, canonical name; the dotted form resolves
through the object method list (concrete success and concrete fatal
miss). -/
theorem C5_alias_resolution :
    (∀ tbl name, findSymbolS tbl name =
        match tbl.find? (protoNameIs name) with
        | some s => Except.ok s
        | none => Except.error ("Symbol " ++ name ++ " not found\n"))
  ∧ (∀ (strict : Bool) (st : VccState) (a t d e : String),
        aliasNameOk a = true → startsDot a = false →
        findSymbolS st.contents t = Except.error e →
        aliasParse strict st ["Alias", a, t] d = Except.error e)
  ∧ (∀ (strict : Bool) (st : VccState) (a t d : String) (sym : StanzaV),
        aliasNameOk a = true → startsDot a = false →
        findSymbolS st.contents t = Except.ok sym →
        ∃ s, aliasParse strict st ["Alias", a, t] d
            = Except.ok { st with contents := st.contents ++ [s] }
          ∧ s.sym_alias = some a ∧ s.sym_name = some t
          ∧ ∀ st4, stanzaJsonEntries st4 s
              = [JVal.arr [JVal.str "$ALIAS", JVal.str a, JVal.str t]])
  ∧ (vccParse true exC5okDoc).map (fun st => (contentsJson st).filter isAliasEntry)
      = Except.ok [JVal.arr [JVal.str "$ALIAS", JVal.str "foo.al", JVal.str "foo.meth"]]
  ∧ vccParse true exC5badDoc = Except.error ("Symbol foo.nope not found\n") := by
  refine ⟨findSymbolS_eq_find, ?_, ?_, by rfl, by rfl⟩
  · intro strict st a t d e ha hs hf
    simp [aliasParse, ha, hs, hf]
  · intro strict st a t d sym ha hs hf
    refine ⟨{ mkStanza StanzaKind.alias ["Alias", a, t] d with
              sym_alias := some a, doc_alias := some a,
              sym_name := some t, doc_name := some t }, ?_, rfl, rfl, fun st4 => rfl⟩
    simp [aliasParse, ha, hs, hf]

/-- C5 witness: the unresolved-target branch of the alias theorem at a
concrete empty symbol table. -/
theorem C5_witness :
    aliasParse true ({} : VccState) ["Alias", "zz", "nope"] ""
      = Except.error ("Symbol nope not found\n") :=
  C5_alias_resolution.2.1 true {} "zz" "nope" "" ("Symbol nope not found\n")
    (by rfl) (by rfl) (by rfl)

/-- C6 counterexample: with strict mode off, a document whose ABI mode
token is invalid parses successfully with a recorded warning, the mode
left unset and the permissive placeholders installed, refuting that an
invalid mode token is fatal regardless of strictness. -/
theorem C6_counterexample :
    okB (vccParse false exAbiBadDoc) = true
  ∧ (vccParse false exAbiBadDoc).map (fun st => (st.warnings, st.strict_abi, st.vrt_major))
      = Except.ok (["Valid ABI types are strict or vrt, got bogus\n"], none,
                   "VRT_MAJOR_VERSION") :=
  ⟨by rfl, by rfl⟩

/-- C6 (amended): an ABI declaration whose mode token is neither strict
nor vrt is fatal exactly when strict mode is enabled; otherwise it is a
warning, the mode is left unset and the symbolic version placeholders
are installed. -/
theorem C6_abi_invalid_mode (st : VccState) (t d : String)
    (h1 : t ≠ "strict") (h2 : t ≠ "vrt") :
    abiParse true st ["ABI", t] d
      = Except.error ("Valid ABI types are strict or vrt, got " ++ t ++ "\n")
  ∧ abiParse false st ["ABI", t] d
      = Except.ok { st with
          strict_abi := none,
          warnings := st.warnings ++ ["Valid ABI types are strict or vrt, got " ++ t ++ "\n"],
          contents := st.contents ++ [mkStanza StanzaKind.abi ["ABI", t] d],
          vrt_major := "VRT_MAJOR_VERSION", vrt_minor := "VRT_MINOR_VERSION" } := by
  constructor
  · simp [abiParse, h1, h2, errW]
  · simp [abiParse, h1, h2, errW]

/-- C6 witness: the amended ABI theorem applied at the concrete invalid
token bogus on the initial state. -/
theorem C6_witness :
    abiParse true ({} : VccState) ["ABI", "bogus"] ""
      = Except.error ("Valid ABI types are strict or vrt, got bogus\n")
  ∧ abiParse false ({} : VccState) ["ABI", "bogus"] ""
      = Except.ok { ({} : VccState) with
          strict_abi := none,
          warnings := ({} : VccState).warnings
            ++ ["Valid ABI types are strict or vrt, got bogus\n"],
          contents := ({} : VccState).contents
            ++ [mkStanza StanzaKind.abi ["ABI", "bogus"] ""],
          vrt_major := "VRT_MAJOR_VERSION", vrt_minor := "VRT_MINOR_VERSION" } :=
  C6_abi_invalid_mode {} "bogus" "" (by decide) (by decide)

/-- C7 counterexample: documents declaring the symbol prefix twice, or
the ABI mode twice, parse successfully (the later declaration wins),
refuting that a second declaration is a fatal error. -/
theorem C7_counterexample :
    okB (vccParse true exTwoPfxDoc) = true
  ∧ (vccParse true exTwoPfxDoc).map (fun st => st.sympfx) = Except.ok "q_"
  ∧ okB (vccParse true exTwoAbiDoc) = true
  ∧ (vccParse true exTwoAbiDoc).map (fun st => st.strict_abi) = Except.ok (some true) :=
  ⟨by rfl, by rfl, by rfl, by rfl⟩

/-- C7 (amended): Prefix and ABI declarations carry no re-declaration
check: on any prior state a well-formed Prefix or ABI stanza succeeds
and simply overwrites the setting (the last declaration wins). -/
theorem C7_redeclaration_always_accepted :
    (∀ (strict : Bool) (st : VccState) (p d : String),
        pfxStanzaParse strict st ["Prefix", p] d
          = Except.ok { st with
              sympfx := p ++ "_",
              contents := st.contents ++ [mkStanza StanzaKind.pfx ["Prefix", p] d] })
  ∧ (∀ (strict : Bool) (st : VccState) (d : String),
        abiParse strict st ["ABI", "strict"] d
          = Except.ok { st with
              strict_abi := some true,
              contents := st.contents ++ [mkStanza StanzaKind.abi ["ABI", "strict"] d] })
  ∧ (∀ (strict : Bool) (st : VccState) (d : String),
        abiParse strict st ["ABI", "vrt"] d
          = Except.ok { st with
              strict_abi := some false,
              contents := st.contents ++ [mkStanza StanzaKind.abi ["ABI", "vrt"] d],
              vrt_major := "VRT_MAJOR_VERSION", vrt_minor := "VRT_MINOR_VERSION" }) := by
  refine ⟨fun strict st p d => ?_, fun strict st d => ?_, fun strict st d => ?_⟩
  · rfl
  · rfl
  · rfl

/-- C8 counterexample: a document whose Module declaration comes after
a Function declaration, and a document with no Module declaration at
all, both parse successfully, refuting that parsing fails fatally in
those cases. -/
theorem C8_counterexample :
    okB (vccParse true exLateModuleDoc) = true
  ∧ okB (vccParse true exNoModuleDoc) = true :=
  ⟨by rfl, by rfl⟩

/-- C8 (amended): the parser enforces no Module-first rule: a late
Module is accepted (stanzas parsed before it derive their labels from
the unset module name, rendered None) and a missing Module leaves the
placeholder name in the sealed C-struct name; no parse-time fatality
occurs. -/
theorem C8_module_not_required_first :
    (vccParse true exLateModuleDoc).map (fun st =>
        (st.contents.map (fun s => s.kind), st.modname, st.csn,
         st.contents.map (fun s => s.rstlbl)))
      = Except.ok ([StanzaKind.function, StanzaKind.module], some "m",
          some "Vmod_vmod_m_Func", [some "None.f()", some "vmod_m(3)"])
  ∧ (vccParse true exNoModuleDoc).map (fun st => st.csn)
      = Except.ok (some "Vmod_vmod_None_Func") :=
  ⟨by rfl, by rfl⟩

/-- C9: find_symbol can only return an entry carrying a prototype with
the looked-up name, so a table whose entries all lack prototypes always
yields the fatal symbol-not-found error; in a parsed document exactly
the Module, Prefix, ABI, Synopsis, Event and Alias stanzas lack
prototypes; and an alias naming an event hook is fatal. -/
theorem C9_protoless_never_resolves :
    (∀ tbl name s, findSymbolS tbl name = Except.ok s →
        ∃ p, s.proto = some p ∧ p.name = name)
  ∧ (∀ tbl name, (∀ s, s ∈ tbl → s.proto = none) →
        findSymbolS tbl name = Except.error ("Symbol " ++ name ++ " not found\n"))
  ∧ (vccParse true exC9kindsDoc).map (fun st =>
        st.contents.filterMap (fun s => if s.proto = none then some s.kind else none))
      = Except.ok [StanzaKind.module, StanzaKind.pfx, StanzaKind.abi, StanzaKind.synopsis,
                   StanzaKind.event, StanzaKind.alias]
  ∧ vccParse true exC9aliasEventDoc = Except.error ("Symbol ev not found\n") := by
  refine ⟨?_, ?_, by rfl, by rfl⟩
  · intro tbl name s h
    rw [findSymbolS_eq_find] at h
    cases hf : tbl.find? (protoNameIs name) with
    | none =>
      rw [hf] at h
      simp at h
    | some s2 =>
      rw [hf] at h
      simp only [Except.ok.injEq] at h
      subst h
      have hp := List.find?_some hf
      cases hps : s2.proto with
      | none => simp [protoNameIs, hps] at hp
      | some p =>
        simp only [protoNameIs, hps, beq_iff_eq] at hp
        exact ⟨p, rfl, hp⟩
  · intro tbl name hnone
    rw [findSymbolS_eq_find]
    have hf : tbl.find? (protoNameIs name) = none := by
      rw [List.find?_eq_none]
      intro x hx
      simp [protoNameIs, hnone x hx]
    rw [hf]

/-- C9 witness: the all-prototype-less branch applied to the singleton
table holding one event stanza. -/
theorem C9_witness :
    findSymbolS [mkStanza StanzaKind.event ["Event", "ev"] ""] "ev"
      = Except.error ("Symbol ev not found\n") :=
  C9_protoless_never_resolves.2.1 [mkStanza StanzaKind.event ["Event", "ev"] ""] "ev"
    (by intro s hs; rw [List.mem_singleton] at hs; subst hs; rfl)

/-- C10: a token counts as quoted exactly when it has length at least
three with equal first and last quote characters; hence the two
character empty quoted literal is not quoted, is registered verbatim
as an enum literal (spec and enum set keep the quote characters), and
is stored verbatim as an enum default, while a three character quoted
default is unquoted. -/
theorem C10_empty_quoted_literal :
    (∀ s : String, is_quoted s = true ↔
        (3 ≤ s.data.length ∧ ∃ c, s.data.head? = some c ∧ s.data.getLast? = some c ∧
          (c = '"' ∨ c = squote)))
  ∧ is_quoted "\"\"" = false
  ∧ ctypeInit ["ENUM", "\x7b", "\"\"", "\x7d"] []
      = Except.ok ({ vt := "ENUM", ct := "VCL_ENUM", spec := some ["\"\""] },
          ([] : List String), ["\"\""])
  ∧ (argInit ["ENUM", "n", "=", "\"\"", ","] [] [] ",").map (fun r => r.1.defval)
      = Except.ok (some "\"\"")
  ∧ (argInit ["ENUM", "n", "=", "\"x\"", ","] [] [] ",").map (fun r => r.1.defval)
      = Except.ok (some "x") := by
  refine ⟨?_, by rfl, by rfl, by rfl, by rfl⟩
  intro s
  unfold is_quoted
  cases h1 : s.data.head? with
  | none =>
    cases h2 : s.data.getLast? <;> simp [h1, h2]
  | some a =>
    cases h2 : s.data.getLast? with
    | none => simp [h1, h2]
    | some b =>
      simp only [h1, h2]
      rw [Bool.and_eq_true, Bool.and_eq_true, Bool.or_eq_true, decide_eq_true_eq,
        beq_iff_eq, beq_iff_eq, beq_iff_eq]
      constructor
      · rintro ⟨hl, hab, hq⟩
        refine ⟨hl, a, rfl, ?_, hq⟩
        rw [← hab]
      · rintro ⟨hl, c, hc1, hc2, hq⟩
        have e1 : a = c := Option.some.inj hc1
        have e2 : b = c := Option.some.inj hc2
        refine ⟨hl, ?_, ?_⟩
        · rw [e1, e2]
        · rw [e1]
          exact hq

end Vmodtool
